import Mathlib

/-!
Verification of the face-recognition core of the Genie smart-home assistant
(`backend/core/face_engine.py`, class `FaceRecognitionEngine`).

Shallow embedding conventions:
* All float arithmetic is modelled over `ℚ`; every constant in the source
  (`0.25`, `0.4`, ...) is an exact decimal, so `ℚ` is faithful.
* Face embeddings are opaque tokens (`Emb := ℕ`); the geometry enters only
  through the external `face_recognition.face_distance` collaborator, which is
  passed in as an explicit function `dist : Emb → Emb → ℚ`.
* `numpy` reductions (`np.min`, `np.max`, `np.sum`, `np.mean`, `np.std`) are
  modelled by the executable list folds below.  The two comparisons of
  `np.std(distances)` against `0.15` and `0.05` are expressed on the variance
  (against `0.0225` and `0.0025`), which is equivalent for a nonnegative
  standard deviation and keeps everything inside `ℚ`.
* Python dicts (`person_encodings`, `known_faces_metadata`) are association
  lists whose keys are unique; `del d[k]` is modelled by filtering the key out,
  which coincides with dict deletion on unique keys.
-/

/-- The engine constant `self.ensemble_weights = [0.4, 0.3, 0.2, 0.1]`. -/
def ensemble_weights : List ℚ := [0.4, 0.3, 0.2, 0.1]

/-- `self.max_faces_per_person = 4`. -/
def max_faces_per_person : ℕ := 4

/-- `self.min_threshold = 0.45`. -/
def min_threshold : ℚ := 0.45

/-- `self.max_threshold = 0.75`. -/
def max_threshold : ℚ := 0.75

/-- `self.temporal_bonus = 0.05`. -/
def temporal_bonus : ℚ := 0.05

/-- `FaceRecognitionEngine._distance_to_similarity`: piecewise-linear banded
conversion of a face distance to a similarity score. -/
def distance_to_similarity (distance : ℚ) : ℚ :=
  if distance ≤ 0.25 then
    1.0 - (distance / 0.25) * 0.1
  else if distance ≤ 0.35 then
    0.9 - ((distance - 0.25) / 0.1) * 0.15
  else if distance ≤ 0.45 then
    0.75 - ((distance - 0.35) / 0.1) * 0.25
  else if distance ≤ 0.6 then
    0.5 - ((distance - 0.45) / 0.15) * 0.3
  else
    max 0.0 (0.2 - ((distance - 0.6) / 0.4) * 0.2)

/-- `FaceRecognitionEngine._get_dynamic_threshold`.  The four quality fields are
the entries the source reads out of the quality-check dict; `dynFlag` is the
engine's `self.dynamic_threshold` switch (set to `True` in `__init__`). -/
def get_dynamic_threshold (dynFlag : Bool) (base_threshold quality_score brightness contrast sharpness : ℚ) : ℚ :=
  if !dynFlag then base_threshold
  else
    let adjustment0 : ℚ := 0.0
    let adjustment1 :=
      if quality_score > 0.8 then adjustment0 - 0.05
      else if quality_score < 0.5 then adjustment0 + 0.1
      else adjustment0
    let adjustment2 :=
      if brightness < 60 ∨ brightness > 200 then adjustment1 + 0.05 else adjustment1
    let adjustment3 :=
      if contrast < 30 then adjustment2 + 0.05 else adjustment2
    let adjustment4 :=
      if sharpness < 80 then adjustment3 + 0.08
      else if sharpness > 200 then adjustment3 - 0.03
      else adjustment3
    max min_threshold (min max_threshold (base_threshold + adjustment4))

/-- Band-1 value of the mapping. -/
lemma dts_eq1 (d : ℚ) (h1 : d ≤ 0.25) :
    distance_to_similarity d = 1.0 - (d / 0.25) * 0.1 := by
  unfold distance_to_similarity
  rw [if_pos h1]

/-- Band-2 value of the mapping. -/
lemma dts_eq2 (d : ℚ) (h1 : ¬ d ≤ 0.25) (h2 : d ≤ 0.35) :
    distance_to_similarity d = 0.9 - ((d - 0.25) / 0.1) * 0.15 := by
  unfold distance_to_similarity
  rw [if_neg h1, if_pos h2]

/-- Band-3 value of the mapping. -/
lemma dts_eq3 (d : ℚ) (h1 : ¬ d ≤ 0.25) (h2 : ¬ d ≤ 0.35) (h3 : d ≤ 0.45) :
    distance_to_similarity d = 0.75 - ((d - 0.35) / 0.1) * 0.25 := by
  unfold distance_to_similarity
  rw [if_neg h1, if_neg h2, if_pos h3]

/-- Band-4 value of the mapping. -/
lemma dts_eq4 (d : ℚ) (h1 : ¬ d ≤ 0.25) (h2 : ¬ d ≤ 0.35) (h3 : ¬ d ≤ 0.45)
    (h4 : d ≤ 0.6) :
    distance_to_similarity d = 0.5 - ((d - 0.45) / 0.15) * 0.3 := by
  unfold distance_to_similarity
  rw [if_neg h1, if_neg h2, if_neg h3, if_pos h4]

/-- Band-5 value of the mapping. -/
lemma dts_eq5 (d : ℚ) (h1 : ¬ d ≤ 0.25) (h2 : ¬ d ≤ 0.35) (h3 : ¬ d ≤ 0.45)
    (h4 : ¬ d ≤ 0.6) :
    distance_to_similarity d = max 0.0 (0.2 - ((d - 0.6) / 0.4) * 0.2) := by
  unfold distance_to_similarity
  rw [if_neg h1, if_neg h2, if_neg h3, if_neg h4]

/-- The banded mapping never returns a negative value. -/
lemma dts_nonneg (d : ℚ) : 0 ≤ distance_to_similarity d := by
  rcases le_or_lt d 0.25 with c | c1
  · rw [dts_eq1 d c]; norm_num at c ⊢; linarith
  rcases le_or_lt d 0.35 with c | c2
  · rw [dts_eq2 d (not_le.mpr c1) c]; norm_num at c ⊢; linarith
  rcases le_or_lt d 0.45 with c | c3
  · rw [dts_eq3 d (not_le.mpr c1) (not_le.mpr c2) c]; norm_num at c ⊢; linarith
  rcases le_or_lt d 0.6 with c | c4
  · rw [dts_eq4 d (not_le.mpr c1) (not_le.mpr c2) (not_le.mpr c3) c]
    norm_num at c ⊢; linarith
  · rw [dts_eq5 d (not_le.mpr c1) (not_le.mpr c2) (not_le.mpr c3) (not_le.mpr c4)]
    exact le_max_of_le_left (by norm_num)

/-- The banded mapping of a nonnegative distance is at most 1. -/
lemma dts_le_one (d : ℚ) (hd : 0 ≤ d) : distance_to_similarity d ≤ 1 := by
  rcases le_or_lt d 0.25 with c | c1
  · rw [dts_eq1 d c]; norm_num; linarith
  rcases le_or_lt d 0.35 with c | c2
  · rw [dts_eq2 d (not_le.mpr c1) c]; norm_num at c1 ⊢; linarith
  rcases le_or_lt d 0.45 with c | c3
  · rw [dts_eq3 d (not_le.mpr c1) (not_le.mpr c2) c]; norm_num at c2 ⊢; linarith
  rcases le_or_lt d 0.6 with c | c4
  · rw [dts_eq4 d (not_le.mpr c1) (not_le.mpr c2) (not_le.mpr c3) c]
    norm_num at c3 ⊢; linarith
  · rw [dts_eq5 d (not_le.mpr c1) (not_le.mpr c2) (not_le.mpr c3) (not_le.mpr c4)]
    refine max_le (by norm_num) ?_
    norm_num at c4 ⊢; linarith

/-- Lower bound on bands 1–2: a distance at most 0.35 scores at least 0.75. -/
lemma dts_lb2 (d : ℚ) (h : d ≤ 0.35) : 0.75 ≤ distance_to_similarity d := by
  rcases le_or_lt d 0.25 with c | c1
  · rw [dts_eq1 d c]; norm_num at c ⊢; linarith
  · rw [dts_eq2 d (not_le.mpr c1) h]; norm_num at h ⊢; linarith

/-- Lower bound on bands 1–3: a distance at most 0.45 scores at least 0.5. -/
lemma dts_lb3 (d : ℚ) (h : d ≤ 0.45) : 0.5 ≤ distance_to_similarity d := by
  rcases le_or_lt d 0.35 with c | c2
  · exact le_trans (by norm_num) (dts_lb2 d c)
  · rcases le_or_lt d 0.25 with c | c1
    · norm_num at c c2; linarith
    · rw [dts_eq3 d (not_le.mpr c1) (not_le.mpr c2) h]; norm_num at h ⊢; linarith

/-- Lower bound on bands 1–4: a distance at most 0.6 scores at least 0.2. -/
lemma dts_lb4 (d : ℚ) (h : d ≤ 0.6) : 0.2 ≤ distance_to_similarity d := by
  rcases le_or_lt d 0.45 with c | c3
  · exact le_trans (by norm_num) (dts_lb3 d c)
  · have c1 : ¬ d ≤ 0.25 := by norm_num at c3 ⊢; linarith
    have c2 : ¬ d ≤ 0.35 := by norm_num at c3 ⊢; linarith
    rw [dts_eq4 d c1 c2 (not_le.mpr c3) h]; norm_num at h ⊢; linarith

/-- Upper bound past band 1: a distance at least 0.25 scores at most 0.9. -/
lemma dts_ub2 (d : ℚ) (h : 0.25 ≤ d) : distance_to_similarity d ≤ 0.9 := by
  rcases le_or_lt d 0.25 with c | c1
  · rw [dts_eq1 d c]; norm_num at h ⊢; linarith
  rcases le_or_lt d 0.35 with c | c2
  · rw [dts_eq2 d (not_le.mpr c1) c]; norm_num at c1 ⊢; linarith
  rcases le_or_lt d 0.45 with c | c3
  · rw [dts_eq3 d (not_le.mpr c1) (not_le.mpr c2) c]; norm_num at c2 ⊢; linarith
  rcases le_or_lt d 0.6 with c | c4
  · rw [dts_eq4 d (not_le.mpr c1) (not_le.mpr c2) (not_le.mpr c3) c]
    norm_num at c3 ⊢; linarith
  · rw [dts_eq5 d (not_le.mpr c1) (not_le.mpr c2) (not_le.mpr c3) (not_le.mpr c4)]
    refine max_le (by norm_num) ?_
    norm_num at c4 ⊢; linarith

/-- Upper bound past band 2: a distance at least 0.35 scores at most 0.75. -/
lemma dts_ub3 (d : ℚ) (h : 0.35 ≤ d) : distance_to_similarity d ≤ 0.75 := by
  rcases le_or_lt d 0.45 with c | c3
  · rcases le_or_lt d 0.35 with c2 | c2
    · have c1 : ¬ d ≤ 0.25 := by norm_num at h ⊢; linarith
      rw [dts_eq2 d c1 c2]; norm_num at h ⊢; linarith
    · have c1 : ¬ d ≤ 0.25 := by norm_num at h ⊢; linarith
      rw [dts_eq3 d c1 (not_le.mpr c2) c]; norm_num; linarith
  · have c1 : ¬ d ≤ 0.25 := by norm_num at h ⊢; linarith
    have c2 : ¬ d ≤ 0.35 := by norm_num at c3 ⊢; linarith
    rcases le_or_lt d 0.6 with c | c4
    · rw [dts_eq4 d c1 c2 (not_le.mpr c3) c]; norm_num at c3 ⊢; linarith
    · rw [dts_eq5 d c1 c2 (not_le.mpr c3) (not_le.mpr c4)]
      refine max_le (by norm_num) ?_
      norm_num at c4 ⊢; linarith

/-- Upper bound past band 3: a distance at least 0.45 scores at most 0.5. -/
lemma dts_ub4 (d : ℚ) (h : 0.45 ≤ d) : distance_to_similarity d ≤ 0.5 := by
  have c1 : ¬ d ≤ 0.25 := by norm_num at h ⊢; linarith
  have c2 : ¬ d ≤ 0.35 := by norm_num at h ⊢; linarith
  rcases le_or_lt d 0.45 with c3 | c3
  · rw [dts_eq3 d c1 c2 c3]; norm_num at h ⊢; linarith
  rcases le_or_lt d 0.6 with c | c4
  · rw [dts_eq4 d c1 c2 (not_le.mpr c3) c]; norm_num at c3 ⊢; linarith
  · rw [dts_eq5 d c1 c2 (not_le.mpr c3) (not_le.mpr c4)]
    refine max_le (by norm_num) ?_
    norm_num at c4 ⊢; linarith

/-- Upper bound past band 4: a distance at least 0.6 scores at most 0.2. -/
lemma dts_ub5 (d : ℚ) (h : 0.6 ≤ d) : distance_to_similarity d ≤ 0.2 := by
  have c1 : ¬ d ≤ 0.25 := by norm_num at h ⊢; linarith
  have c2 : ¬ d ≤ 0.35 := by norm_num at h ⊢; linarith
  have c3 : ¬ d ≤ 0.45 := by norm_num at h ⊢; linarith
  rcases le_or_lt d 0.6 with c4 | c4
  · rw [dts_eq4 d c1 c2 c3 c4]; norm_num at h ⊢; linarith
  · rw [dts_eq5 d c1 c2 c3 (not_le.mpr c4)]
    refine max_le (by norm_num) ?_
    norm_num at c4 ⊢; linarith

/-- The banded mapping is monotone non-increasing. -/
lemma dts_antitone (d1 d2 : ℚ) (h : d1 ≤ d2) :
    distance_to_similarity d2 ≤ distance_to_similarity d1 := by
  rcases le_or_lt d2 0.25 with c1 | c1
  · rw [dts_eq1 d2 c1, dts_eq1 d1 (le_trans h c1)]
    norm_num; linarith
  · rcases le_or_lt d2 0.35 with c2 | c2
    · rcases le_or_lt d1 0.25 with e | e
      · refine le_trans (dts_ub2 d2 (le_of_lt c1)) ?_
        rw [dts_eq1 d1 e]; norm_num at e ⊢; linarith
      · rw [dts_eq2 d2 (not_le.mpr c1) c2, dts_eq2 d1 (not_le.mpr e) (le_trans h c2)]
        norm_num; linarith
    · rcases le_or_lt d2 0.45 with c3 | c3
      · rcases le_or_lt d1 0.35 with e | e
        · exact le_trans (dts_ub3 d2 (le_of_lt c2)) (dts_lb2 d1 e)
        · rw [dts_eq3 d2 (not_le.mpr c1) (not_le.mpr c2) c3,
              dts_eq3 d1 (not_le.mpr (lt_trans (by norm_num) e))
                (not_le.mpr e) (le_trans h c3)]
          norm_num; linarith
      · rcases le_or_lt d2 0.6 with c4 | c4
        · rcases le_or_lt d1 0.45 with e | e
          · exact le_trans (dts_ub4 d2 (le_of_lt c3)) (dts_lb3 d1 e)
          · rw [dts_eq4 d2 (not_le.mpr c1) (not_le.mpr c2) (not_le.mpr c3) c4,
                dts_eq4 d1 (not_le.mpr (lt_trans (by norm_num) e))
                  (not_le.mpr (lt_trans (by norm_num) e)) (not_le.mpr e) (le_trans h c4)]
            norm_num; linarith
        · rcases le_or_lt d1 0.6 with e | e
          · exact le_trans (dts_ub5 d2 (le_of_lt c4)) (dts_lb4 d1 e)
          · rw [dts_eq5 d2 (not_le.mpr c1) (not_le.mpr c2) (not_le.mpr c3) (not_le.mpr c4),
                dts_eq5 d1 (not_le.mpr (lt_trans (by norm_num) e))
                  (not_le.mpr (lt_trans (by norm_num) e))
                  (not_le.mpr (lt_trans (by norm_num) e)) (not_le.mpr e)]
            refine max_le_max (le_refl _) ?_
            norm_num; linarith

/-- C10: the banded distance-to-similarity mapping returns a value in [0,1] for
nonnegative distances, is monotone non-increasing, and the adjacent band
formulas agree at the boundaries 0.25, 0.35, 0.45 and 0.6. -/
theorem distance_to_similarity_props (d d1 d2 : ℚ)
    (hd : 0 ≤ d) (h1 : 0 ≤ d1) (h12 : d1 ≤ d2) :
    (0 ≤ distance_to_similarity d ∧ distance_to_similarity d ≤ 1) ∧
    distance_to_similarity d2 ≤ distance_to_similarity d1 ∧
    (distance_to_similarity 0.25 = 0.9 - ((0.25 - 0.25) / 0.1) * 0.15 ∧
     distance_to_similarity 0.35 = 0.75 - ((0.35 - 0.35) / 0.1) * 0.25 ∧
     distance_to_similarity 0.45 = 0.5 - ((0.45 - 0.45) / 0.15) * 0.3 ∧
     distance_to_similarity 0.6 = 0.2 - ((0.6 - 0.6) / 0.4) * 0.2) :=
  ⟨⟨dts_nonneg d, dts_le_one d hd⟩, dts_antitone d1 d2 h12,
    by norm_num [distance_to_similarity]⟩

/-- Witness for `distance_to_similarity_props` at d = 0.3, d1 = 0.2, d2 = 0.5. -/
theorem distance_to_similarity_props_witness :
    (0 ≤ distance_to_similarity 0.3 ∧ distance_to_similarity 0.3 ≤ 1) ∧
    distance_to_similarity 0.5 ≤ distance_to_similarity 0.2 ∧
    (distance_to_similarity 0.25 = 0.9 - ((0.25 - 0.25) / 0.1) * 0.15 ∧
     distance_to_similarity 0.35 = 0.75 - ((0.35 - 0.35) / 0.1) * 0.25 ∧
     distance_to_similarity 0.45 = 0.5 - ((0.45 - 0.45) / 0.15) * 0.3 ∧
     distance_to_similarity 0.6 = 0.2 - ((0.6 - 0.6) / 0.4) * 0.2) :=
  distance_to_similarity_props 0.3 0.2 0.5 (by norm_num) (by norm_num) (by norm_num)

/-- C2: for every base threshold in [0.1, 1.0] and every quality report, the
dynamic threshold (with the engine's `dynamic_threshold = True` configuration)
lies within [0.45, 0.75]. -/
theorem dynamic_threshold_in_bounds (base q b c s : ℚ)
    (hlo : 0.1 ≤ base) (hhi : base ≤ 1.0) :
    0.45 ≤ get_dynamic_threshold true base q b c s ∧
    get_dynamic_threshold true base q b c s ≤ 0.75 := by
  unfold get_dynamic_threshold min_threshold max_threshold
  refine ⟨le_max_left _ _, max_le (by norm_num) ?_⟩
  exact min_le_left _ _

/-- Witness for `dynamic_threshold_in_bounds` at base 0.55 and the default
quality fields. -/
theorem dynamic_threshold_in_bounds_witness :
    0.45 ≤ get_dynamic_threshold true 0.55 0.5 128 50 100 ∧
    get_dynamic_threshold true 0.55 0.5 128 50 100 ≤ 0.75 :=
  dynamic_threshold_in_bounds 0.55 0.5 128 50 100 (by norm_num) (by norm_num)

/-! ## Similarity Scorer (`_calculate_similarity_score`) -/

/-- Face embeddings are opaque tokens; the external encoder and
`face_recognition.face_distance` supply all geometry. -/
abbrev Emb := ℕ

/-- `np.sum` / Python `sum` over a list of rationals. -/
def listSum : List ℚ → ℚ
  | [] => 0
  | d :: ds => d + listSum ds

/-- `np.min` over a (nonempty, in all uses) list; 0 on the empty list. -/
def listMin : List ℚ → ℚ
  | [] => 0
  | [d] => d
  | d :: ds => min d (listMin ds)

/-- `np.max` over a (nonempty, in all uses) list; 0 on the empty list. -/
def listMax : List ℚ → ℚ
  | [] => 0
  | [d] => d
  | d :: ds => max d (listMax ds)

/-- `np.mean`: the arithmetic mean (0 on the empty list, where `np.mean`
yields NaN; every comparison the engine makes against a NaN mean is false,
which matches comparing against 0 here in all reachable uses). -/
def listMean (ds : List ℚ) : ℚ := listSum ds / ds.length

/-- The population variance, i.e. `np.std(ds) ** 2`.  The source compares
`np.std(distances)` with `0.15` and `0.05`; those tests are expressed on the
variance (against `0.0225` and `0.0025`), which is equivalent for the
nonnegative standard deviation and stays inside `ℚ`. -/
def listVariance (ds : List ℚ) : ℚ :=
  listSum (ds.map (fun d => (d - listMean ds) ^ 2)) / ds.length

/-- `self.ensemble_weights[min(i, len(self.ensemble_weights) - 1)]`:
the weight applied to the i-th reference distance. -/
def ensembleWeight (i : ℕ) : ℚ := ensemble_weights.getD (min i 3) 0

/-- The weighted similarity sum of lines 116–127: for each enumerated
distance, `distance_to_similarity` times its ensemble weight, summed. -/
def weightedSims : ℕ → List ℚ → ℚ
  | _, [] => 0
  | i, d :: ds => distance_to_similarity d * ensembleWeight i + weightedSims (i + 1) ds

/-- Lines 131–139: `consistency_bonus`, from the spread of the distances.
The source tests `np.std(distances)` against 0.15 and 0.05; here the same
tests are on the variance. -/
def consistency_bonus (distances : List ℚ) : ℚ :=
  if 0.0225 < listVariance distances then 0.8
  else if listVariance distances < 0.0025 then 1.1
  else 1.0

/-- Lines 141–146: `final_score`, combining the weighted ensemble vote, the
best single match and the distance-based score, scaled by the bonus. -/
def final_score (distances : List ℚ) : ℚ :=
  (weightedSims 0 distances * 0.5 +
   listMax (distances.map distance_to_similarity) * 0.3 +
   (1.0 - listMin distances) * 0.2) * consistency_bonus distances

/-- Lines 148–155: the consensus penalty for persons with ≥ 3 encodings when
fewer than 60% of the distances are within 0.5. -/
def consensus_adjusted (distances : List ℚ) : ℚ :=
  if 3 ≤ distances.length ∧
      ((distances.countP (fun d => decide (d ≤ 0.5)) : ℚ) / distances.length < 0.6)
  then final_score distances * 0.7
  else final_score distances

/-- The scoring core of `_calculate_similarity_score`, as a function of the
distance list returned by `face_recognition.face_distance(person_encodings,
face_encoding)`.  The engine always has `use_ensemble_method = True`, so the
simple path is taken exactly for a single stored encoding (where
`np.min(distances)` is that distance). -/
def scoreFromDistances : List ℚ → ℚ
  | [] => 0
  | [d] => distance_to_similarity d
  | distances => min 1.0 (consensus_adjusted distances)

/-! ## Identity Store state -/

/-- The metadata dict the engine keeps per person (timestamps are dropped:
they come from the wall clock, and no claim observes them). -/
structure PersonMeta where
  photo_paths : List String
  access_level : String
  notes : String
  encoding_count : ℕ
  deriving DecidableEq, Repr

/-- The mutable state of `FaceRecognitionEngine`: two parallel lists plus the
per-person dict of encodings and the metadata dict, both as association lists
with unique keys. -/
structure Store where
  known_face_encodings : List Emb
  known_face_names : List String
  person_encodings : List (String × List Emb)
  known_faces_metadata : List (String × PersonMeta)
  deriving DecidableEq, Repr

/-- Dict lookup (`d[k]` / `k in d`). -/
def lookupA {α : Type} (k : String) : List (String × α) → Option α
  | [] => none
  | (k2, v) :: rest => if k2 = k then some v else lookupA k rest

/-- Dict update (`d[k] = v`); appends when the key is new. -/
def setA {α : Type} (k : String) (v : α) : List (String × α) → List (String × α)
  | [] => [(k, v)]
  | (k2, v2) :: rest => if k2 = k then (k, v) :: rest else (k2, v2) :: setA k v rest

/-- Dict deletion (`del d[k]`); on the unique-keys invariant this equals
removing the one binding of `k`. -/
def eraseA {α : Type} (k : String) (l : List (String × α)) : List (String × α) :=
  l.filter (fun p => p.1 ≠ k)

/-- `FaceRecognitionEngine._calculate_similarity_score(face_encoding,
person_name)`: 0 for an unknown or empty identity, else the score of the
distances from the probe to the stored reference encodings. -/
def calculate_similarity_score (dist : Emb → Emb → ℚ) (st : Store)
    (face_encoding : Emb) (person_name : String) : ℚ :=
  match lookupA person_name st.person_encodings with
  | none => 0
  | some encs =>
    if encs.length = 0 then 0
    else scoreFromDistances (encs.map (fun e => dist e face_encoding))

/-! ## C1: range of the similarity score -/

/-- Every ensemble weight is nonnegative. -/
lemma ensembleWeight_nonneg (i : ℕ) : 0 ≤ ensembleWeight i := by
  unfold ensembleWeight ensemble_weights
  rcases i with _ | _ | _ | n
  · norm_num
  · norm_num
  · norm_num
  · rw [show min (n + 1 + 1 + 1) 3 = 3 by omega]
    norm_num

/-- The weighted similarity sum is nonnegative from any starting index. -/
lemma weightedSims_nonneg (i : ℕ) (ds : List ℚ) : 0 ≤ weightedSims i ds := by
  induction ds generalizing i with
  | nil => simp [weightedSims]
  | cons d rest ih =>
    have h1 := mul_nonneg (dts_nonneg d) (ensembleWeight_nonneg i)
    have h2 := ih (i + 1)
    simp only [weightedSims]
    linarith

/-- `listMax` of a nonempty list is one of its elements. -/
lemma listMax_mem (l : List ℚ) (h : l ≠ []) : listMax l ∈ l := by
  induction l with
  | nil => exact absurd rfl h
  | cons d rest ih =>
    cases rest with
    | nil => simp [listMax]
    | cons e rest2 =>
      rcases max_choice d (listMax (e :: rest2)) with hm | hm
      · rw [show listMax (d :: e :: rest2) = max d (listMax (e :: rest2)) from rfl, hm]
        exact List.mem_cons_self d _
      · rw [show listMax (d :: e :: rest2) = max d (listMax (e :: rest2)) from rfl, hm]
        exact List.mem_cons_of_mem d (ih (by simp))

/-- `listMin` of a nonempty list is one of its elements. -/
lemma listMin_mem (l : List ℚ) (h : l ≠ []) : listMin l ∈ l := by
  induction l with
  | nil => exact absurd rfl h
  | cons d rest ih =>
    cases rest with
    | nil => simp [listMin]
    | cons e rest2 =>
      rcases min_choice d (listMin (e :: rest2)) with hm | hm
      · rw [show listMin (d :: e :: rest2) = min d (listMin (e :: rest2)) from rfl, hm]
        exact List.mem_cons_self d _
      · rw [show listMin (d :: e :: rest2) = min d (listMin (e :: rest2)) from rfl, hm]
        exact List.mem_cons_of_mem d (ih (by simp))

/-- The consistency bonus is positive. -/
lemma consistency_bonus_pos (ds : List ℚ) : 0 < consistency_bonus ds := by
  unfold consistency_bonus
  split_ifs <;> norm_num

/-- With all distances at most 1, the combined ensemble score is nonnegative. -/
lemma final_score_nonneg (ds : List ℚ) (hne : ds ≠ []) (h1 : ∀ d ∈ ds, d ≤ 1) :
    0 ≤ final_score ds := by
  unfold final_score
  have hwa := weightedSims_nonneg 0 ds
  have hbm : 0 ≤ listMax (ds.map distance_to_similarity) := by
    have hm := listMax_mem (ds.map distance_to_similarity) (by simpa using hne)
    rcases List.mem_map.mp hm with ⟨d, _, hd⟩
    rw [← hd]
    exact dts_nonneg d
  have hmin : listMin ds ≤ 1 := h1 _ (listMin_mem ds hne)
  have hb := consistency_bonus_pos ds
  have : (0:ℚ) ≤ weightedSims 0 ds * 0.5 + listMax (ds.map distance_to_similarity) * 0.3 +
      (1.0 - listMin ds) * 0.2 := by
    norm_num
    nlinarith
  nlinarith

/-- The distance-list score is at most 1 for nonnegative distances, and
nonnegative as soon as every distance is at most 1. -/
lemma scoreFromDistances_bounds (ds : List ℚ) (h0 : ∀ d ∈ ds, 0 ≤ d) :
    scoreFromDistances ds ≤ 1 ∧
    ((∀ d ∈ ds, d ≤ 1) → 0 ≤ scoreFromDistances ds) := by
  match ds with
  | [] =>
    constructor
    · norm_num [scoreFromDistances]
    · intro _; norm_num [scoreFromDistances]
  | [d] =>
    constructor
    · simpa [scoreFromDistances] using dts_le_one d (h0 d (by simp))
    · intro _; simpa [scoreFromDistances] using dts_nonneg d
  | a :: b :: rest =>
    have heq : scoreFromDistances (a :: b :: rest) =
        min 1.0 (consensus_adjusted (a :: b :: rest)) := rfl
    rw [heq]
    constructor
    · exact le_trans (min_le_left _ _) (by norm_num)
    · intro h1
      have hfs : 0 ≤ final_score (a :: b :: rest) :=
        final_score_nonneg _ (by simp) h1
      have hca : 0 ≤ consensus_adjusted (a :: b :: rest) := by
        unfold consensus_adjusted
        split_ifs
        · nlinarith
        · exact hfs
      exact le_min (by norm_num) hca

/-- C1 (amended): the similarity score is clamped from above at 1 (for
nonnegative reference distances), and it lies in [0,1] whenever every
reference distance is at most 1; the lower clamp at 0 claimed for distances
greater than 1 does not hold (see the counterexample). -/
theorem calculate_similarity_score_bounds (dist : Emb → Emb → ℚ) (st : Store)
    (face_encoding : Emb) (person_name : String)
    (h0 : ∀ e ∈ (lookupA person_name st.person_encodings).getD [],
        0 ≤ dist e face_encoding) :
    calculate_similarity_score dist st face_encoding person_name ≤ 1 ∧
    ((∀ e ∈ (lookupA person_name st.person_encodings).getD [],
        dist e face_encoding ≤ 1) →
      0 ≤ calculate_similarity_score dist st face_encoding person_name) := by
  unfold calculate_similarity_score
  cases hl : lookupA person_name st.person_encodings with
  | none => norm_num
  | some encs =>
    rw [hl] at h0
    simp only [Option.getD_some] at h0
    by_cases hz : encs.length = 0
    · simp [hz]
    · simp only [hz, if_false]
      have h0' : ∀ d ∈ encs.map (fun e => dist e face_encoding), 0 ≤ d := by
        intro d hd
        rcases List.mem_map.mp hd with ⟨e, he, hde⟩
        rw [← hde]
        exact h0 e he
      have hb := scoreFromDistances_bounds (encs.map (fun e => dist e face_encoding)) h0'
      refine ⟨hb.1, fun h1 => hb.2 ?_⟩
      intro d hd
      rcases List.mem_map.mp hd with ⟨e, he, hde⟩
      rw [← hde]
      exact h1 e he

/-- A two-encoding identity used by the C1 counterexample. -/
def storeC1neg : Store := ⟨[21, 22], ["A", "A"], [("A", [21, 22])], []⟩

/-- C1 counterexample: with both reference distances equal to 2 (> 1) the
ensemble score is negative, so the similarity returned by
`_calculate_similarity_score` is not clamped from below at 0. -/
theorem similarity_score_can_be_negative :
    calculate_similarity_score (fun _ _ => 2) storeC1neg 99 "A" < 0 := by
  norm_num [calculate_similarity_score, scoreFromDistances, consensus_adjusted,
    final_score, consistency_bonus, storeC1neg, lookupA, listMin, listMax, listMean,
    listSum, listVariance, weightedSims, ensembleWeight, ensemble_weights,
    distance_to_similarity, List.countP]

/-- A two-encoding identity used by the C1 witness. -/
def storeC1w : Store := ⟨[31, 32], ["B", "B"], [("B", [31, 32])], []⟩

/-- Witness for `calculate_similarity_score_bounds` with both reference
distances equal to 0.3. -/
theorem calculate_similarity_score_bounds_witness :
    calculate_similarity_score (fun _ _ => 0.3) storeC1w 9 "B" ≤ 1 ∧
    0 ≤ calculate_similarity_score (fun _ _ => 0.3) storeC1w 9 "B" := by
  have h := calculate_similarity_score_bounds (fun _ _ => 0.3) storeC1w 9 "B"
    (by intro e he; norm_num)
  exact ⟨h.1, h.2 (by intro e he; norm_num)⟩

/-! ## Enrollment (`add_known_person`) -/

/-- The possible returns of `add_known_person`.  `saveFailed` is the
exception path: `image.save` raising inside the `try` block lands in the
generic handler, which returns `{"success": False, ...}`. -/
inductive EnrollOutcome where
  | noFace
  | lowQuality (quality_score : ℚ)
  | extractFailed
  | outlier (distance_to_existing : ℚ)
  | saveFailed
  | ok (person_count : ℕ) (encoding_count : ℕ)
  deriving DecidableEq, Repr

/-- `result["success"]` of the returned dict. -/
def EnrollOutcome.isSuccess : EnrollOutcome → Bool
  | .ok _ _ => true
  | _ => false

/-- The error returns that the source produces before touching any engine
state (no face, low quality, failed extraction, outlier). -/
def EnrollOutcome.isPreMutationError : EnrollOutcome → Bool
  | .noFace => true
  | .lowQuality _ => true
  | .extractFailed => true
  | .outlier _ => true
  | _ => false

/-- Lines 341–377 of `add_known_person`: saving the enrollment photo and
updating the metadata dict, after the encodings have been stored.  If the
photo save raises (`photo_save_ok = false`), the exception handler returns an
error with the encoding mutation already applied and the metadata untouched. -/
def finishEnroll (st1 : Store) (name : String) (photo_save_ok : Bool) :
    Store × EnrollOutcome :=
  let encoding_count := ((lookupA name st1.person_encodings).getD []).length
  let photo_path := name ++ "_" ++ toString encoding_count ++ ".jpg"
  if !photo_save_ok then (st1, .saveFailed)
  else
    let md :=
      match lookupA name st1.known_faces_metadata with
      | some m =>
        setA name
          ({ m with photo_paths := m.photo_paths ++ [photo_path],
                    encoding_count := encoding_count })
          st1.known_faces_metadata
      | none =>
        setA name
          ({ photo_paths := [photo_path], access_level := "standard",
             notes := "", encoding_count := encoding_count })
          st1.known_faces_metadata
    let st2 := { st1 with known_faces_metadata := md }
    (st2, .ok st2.person_encodings.length encoding_count)

/-- `FaceRecognitionEngine.add_known_person`.  The external collaborators are
explicit inputs: `face_count` is the number of detected faces,
`quality_score` the Quality Validator's score for the selected face,
`extracted` the encoder's result, `dist` the
`face_recognition.face_distance` metric, and `photo_save_ok` whether
`image.save` succeeds. -/
def add_known_person (dist : Emb → Emb → ℚ) (st : Store) (name : String)
    (face_count : ℕ) (quality_score : ℚ) (extracted : Option Emb)
    (photo_save_ok : Bool) : Store × EnrollOutcome :=
  if face_count = 0 then (st, .noFace)
  else if quality_score < 0.6 then (st, .lowQuality quality_score)
  else
    match extracted with
    | none => (st, .extractFailed)
    | some face_encoding =>
      match lookupA name st.person_encodings with
      | some existing_encodings =>
        let distances := existing_encodings.map (fun x => dist x face_encoding)
        let avg_distance := listMean distances
        if avg_distance > 0.7 then (st, .outlier avg_distance)
        else
          let st1 :=
            if max_faces_per_person ≤ existing_encodings.length then
              -- replace: index 0 of the person's list and the first
              -- occurrence of `name` in the parallel lists
              let old_encoding_idx := st.known_face_names.indexOf name
              { st with
                known_face_encodings :=
                  st.known_face_encodings.set old_encoding_idx face_encoding,
                person_encodings :=
                  setA name (existing_encodings.set 0 face_encoding)
                    st.person_encodings }
            else
              { st with
                known_face_encodings := st.known_face_encodings ++ [face_encoding],
                known_face_names := st.known_face_names ++ [name],
                person_encodings :=
                  setA name (existing_encodings ++ [face_encoding])
                    st.person_encodings }
          finishEnroll st1 name photo_save_ok
      | none =>
        let st1 :=
          { st with
            known_face_encodings := st.known_face_encodings ++ [face_encoding],
            known_face_names := st.known_face_names ++ [name],
            person_encodings := setA name [face_encoding] st.person_encodings }
        finishEnroll st1 name photo_save_ok

/-- `finishEnroll` never reports one of the pre-mutation errors. -/
lemma finishEnroll_snd_not_pre (st1 : Store) (name : String) (saveOk : Bool) :
    (finishEnroll st1 name saveOk).2.isPreMutationError = false := by
  cases saveOk with
  | false => simp [finishEnroll, EnrollOutcome.isPreMutationError]
  | true =>
    cases hl : lookupA name st1.known_faces_metadata <;>
      simp [finishEnroll, hl, EnrollOutcome.isPreMutationError]

/-- `finishEnroll` never reports an outlier rejection. -/
lemma finishEnroll_snd_ne_outlier (st1 : Store) (name : String) (saveOk : Bool) (a : ℚ) :
    (finishEnroll st1 name saveOk).2 ≠ .outlier a := by
  intro h
  have hf := finishEnroll_snd_not_pre st1 name saveOk
  rw [h] at hf
  simp [EnrollOutcome.isPreMutationError] at hf

/-- C5 (amended): every enrollment error raised before the mutation point
(no face, quality below 0.6, failed encoding extraction, outlier rejection)
leaves the Identity Store exactly as it was. -/
theorem add_known_person_pre_mutation_errors_preserve (dist : Emb → Emb → ℚ)
    (st : Store) (name : String) (face_count : ℕ) (quality_score : ℚ)
    (extracted : Option Emb) (photo_save_ok : Bool)
    (h : (add_known_person dist st name face_count quality_score extracted
        photo_save_ok).2.isPreMutationError = true) :
    (add_known_person dist st name face_count quality_score extracted
      photo_save_ok).1 = st := by
  by_cases h1 : face_count = 0
  · simp [add_known_person, h1]
  by_cases h2 : quality_score < 0.6
  · simp [add_known_person, h1, h2]
  cases extracted with
  | none => simp [add_known_person, h1, h2]
  | some face_encoding =>
    cases hl : lookupA name st.person_encodings with
    | none =>
      exfalso
      simp [add_known_person, h1, h2, hl, finishEnroll_snd_not_pre] at h
    | some existing =>
      by_cases h3 : listMean (existing.map (fun x => dist x face_encoding)) > 0.7
      · simp [add_known_person, h1, h2, hl, h3]
      · exfalso
        simp [add_known_person, h1, h2, hl, h3, finishEnroll_snd_not_pre] at h

/-- A one-encoding identity used by the C5 witness and counterexample. -/
def storeC5 : Store :=
  ⟨[3], ["A"], [("A", [3])], [("A", ⟨["A_1.jpg"], "standard", "", 1⟩)]⟩

/-- Witness for `add_known_person_pre_mutation_errors_preserve`: a
quality-0.5 enrollment errors out and preserves the store. -/
theorem add_known_person_pre_mutation_errors_preserve_witness :
    (add_known_person (fun _ _ => 0) storeC5 "A" 1 0.5 (some 7) true).2.isPreMutationError
      = true ∧
    (add_known_person (fun _ _ => 0) storeC5 "A" 1 0.5 (some 7) true).1 = storeC5 := by
  constructor
  · norm_num [add_known_person, EnrollOutcome.isPreMutationError]
  · exact add_known_person_pre_mutation_errors_preserve (fun _ _ => 0) storeC5 "A" 1 0.5
      (some 7) true (by norm_num [add_known_person, EnrollOutcome.isPreMutationError])

/-- C5 counterexample: when the photo save fails, `add_known_person` returns
an error (`success = False`) yet the Identity Store has already been mutated,
so the state is not as it was before the call. -/
theorem add_known_person_can_mutate_on_error :
    (add_known_person (fun _ _ => 0) storeC5 "A" 1 1 (some 7) false).2.isSuccess
      = false ∧
    (add_known_person (fun _ _ => 0) storeC5 "A" 1 1 (some 7) false).1 ≠ storeC5 := by
  norm_num [add_known_person, finishEnroll, lookupA, setA, listMean, listSum,
    max_faces_per_person, storeC5, EnrollOutcome.isSuccess, Store.mk.injEq]

/-- C6: for an enrollment of an already-known name that passes the quality
gate and encoding extraction, the call is rejected as an outlier exactly when
the average distance from the new encoding to the existing ones exceeds 0.7,
and an outlier rejection leaves the store untouched. -/
theorem add_known_person_outlier_iff (dist : Emb → Emb → ℚ) (st : Store)
    (name : String) (face_count : ℕ) (quality_score : ℚ) (face_encoding : Emb)
    (photo_save_ok : Bool) (existing : List Emb)
    (hfc : face_count ≠ 0) (hq : ¬ quality_score < 0.6)
    (hmem : lookupA name st.person_encodings = some existing) (hne : existing ≠ []) :
    ((add_known_person dist st name face_count quality_score (some face_encoding)
        photo_save_ok).2 =
        .outlier (listMean (existing.map (fun x => dist x face_encoding))) ↔
      0.7 < listMean (existing.map (fun x => dist x face_encoding))) ∧
    (0.7 < listMean (existing.map (fun x => dist x face_encoding)) →
      add_known_person dist st name face_count quality_score (some face_encoding)
          photo_save_ok =
        (st, .outlier (listMean (existing.map (fun x => dist x face_encoding))))) := by
  by_cases h3 : listMean (existing.map (fun x => dist x face_encoding)) > 0.7
  · refine ⟨⟨fun _ => h3, fun _ => ?_⟩, fun _ => ?_⟩ <;>
      simp [add_known_person, hfc, hq, hmem, h3]
  · refine ⟨⟨fun h => ?_, fun h => absurd h h3⟩, fun h => absurd h h3⟩
    exfalso
    simp [add_known_person, hfc, hq, hmem, h3, finishEnroll_snd_ne_outlier] at h

/-- A one-encoding identity used by the C6 witness. -/
def storeC6 : Store := ⟨[3], ["C"], [("C", [3])], []⟩

/-- The constant distance function used by the C6 witness. -/
def distOne : Emb → Emb → ℚ := fun _ _ => 1

/-- Witness for `add_known_person_outlier_iff`: at constant distance 1 the
average exceeds 0.7, the enrollment is rejected as an outlier, and the store
is returned unchanged. -/
theorem add_known_person_outlier_iff_witness :
    add_known_person distOne storeC6 "C" 1 1 (some 7) true =
      (storeC6, .outlier (listMean ([3].map (fun x => distOne x 7)))) :=
  (add_known_person_outlier_iff distOne storeC6 "C" 1 1 7 true [3]
      (by norm_num) (by norm_num) (by norm_num [lookupA, storeC6]) (by norm_num)).2
    (by norm_num [listMean, listSum, distOne])

/-- The four-encoding identity used for the C3 over-capacity trace. -/
def storeC3 : Store :=
  ⟨[1, 2, 3, 4], ["P", "P", "P", "P"], [("P", [1, 2, 3, 4])],
    [("P", ⟨["P_1.jpg", "P_2.jpg", "P_3.jpg", "P_4.jpg"], "standard", "", 4⟩)]⟩

/-- The state after enrolling a fifth encoding (5) for "P". -/
def storeC3step1 : Store × EnrollOutcome :=
  add_known_person (fun _ _ => 0) storeC3 "P" 1 1 (some 5) true

/-- The state after then enrolling a sixth encoding (6) for "P". -/
def storeC3step2 : Store × EnrollOutcome :=
  add_known_person (fun _ _ => 0) storeC3step1.1 "P" 1 1 (some 6) true

/-- C3: two successive over-capacity enrollments (5 then 6) on the identity
"P" = [1,2,3,4] both succeed and keep the count at 4, but both overwrite slot
0, leaving [6,2,3,4]: the second-oldest embedding 2 survives and the freshly
added 5 is displaced, instead of the FIFO result [3,4,5,6]. -/
theorem enroll_overcapacity_overwrites_slot_zero :
    storeC3step1.2.isSuccess = true ∧ storeC3step2.2.isSuccess = true ∧
    lookupA "P" storeC3step1.1.person_encodings = some [5, 2, 3, 4] ∧
    lookupA "P" storeC3step2.1.person_encodings = some [6, 2, 3, 4] := by
  norm_num [storeC3step2, storeC3step1, storeC3, add_known_person, finishEnroll,
    lookupA, setA, listMean, listSum, max_faces_per_person,
    EnrollOutcome.isSuccess, List.indexOf]

/-- The empty engine state. -/
def emptyStore : Store := ⟨[], [], [], []⟩

/-- The state after enrolling "A" with encoding 11 into the empty store. -/
def storeC9a : Store :=
  (add_known_person (fun _ _ => 0) emptyStore "A" 1 1 (some 11) true).1

/-- The state after then enrolling encoding 12 for "A". -/
def storeC9b : Store :=
  (add_known_person (fun _ _ => 0) storeC9a "A" 1 1 (some 12) true).1

/-- C9: after enrolling 11 then 12 for "A", the stored list is [11, 12] with
the oldest encoding first; the ensemble weight applied to index 0 (the
oldest) is 0.4 and to index 1 (the newest) is 0.3, and a probe at distance 0
from the oldest and 0.6 from the newest outscores the mirrored probe — the
oldest reference, not the newest, receives the largest weight. -/
theorem ensemble_weight_favors_oldest :
    lookupA "A" storeC9b.person_encodings = some [11, 12] ∧
    ensembleWeight 0 = 0.4 ∧ ensembleWeight 1 = 0.3 ∧
    scoreFromDistances [0, 0.6] > scoreFromDistances [0.6, 0] := by
  norm_num [storeC9b, storeC9a, emptyStore, add_known_person, finishEnroll, lookupA,
    setA, listMean, listSum, max_faces_per_person, ensembleWeight, ensemble_weights,
    scoreFromDistances, consensus_adjusted, final_score, consistency_bonus,
    weightedSims, listMin, listMax, listVariance, distance_to_similarity, List.countP]

/-! ## Removal (`remove_known_person`), listing and photos -/

/-- The returns of `remove_known_person`. -/
inductive RemoveOutcome where
  | notFound
  | removed (remaining_persons : ℕ)
  deriving DecidableEq, Repr

/-- Deleting, from the encodings list, the positions whose parallel name
equals `target` — the reversed-index `del` loop of lines 596–604 acting on
the two parallel lists. -/
def deleteEncodingsOf (target : String) : List String → List Emb → List Emb
  | [], es => es
  | _ :: _, [] => []
  | n :: ns, e :: es =>
    if n = target then deleteEncodingsOf target ns es
    else e :: deleteEncodingsOf target ns es

/-- `FaceRecognitionEngine.remove_known_person`.  Photo files are unlinked on
the filesystem (failures there are only logged), so the file store does not
appear in the state. -/
def remove_known_person (st : Store) (name : String) : Store × RemoveOutcome :=
  match lookupA name st.person_encodings with
  | none => (st, .notFound)
  | some _ =>
    let names2 := st.known_face_names.filter (fun n => n ≠ name)
    let encs2 := deleteEncodingsOf name st.known_face_names st.known_face_encodings
    let pe2 := eraseA name st.person_encodings
    let md2 :=
      match lookupA name st.known_faces_metadata with
      | some _ => eraseA name st.known_faces_metadata
      | none => st.known_faces_metadata
    let st2 : Store := ⟨encs2, names2, pe2, md2⟩
    (st2, .removed pe2.length)

/-- `FaceRecognitionEngine.get_person_photo`: the most recent photo path of
the person's metadata, read through the filesystem collaborator `fs` (which
returns the bytes when the path exists, else nothing). -/
def get_person_photo (fs : String → Option (List ℕ)) (st : Store)
    (name : String) : Option (List ℕ) :=
  match lookupA name st.known_faces_metadata with
  | none => none
  | some m =>
    match m.photo_paths.getLast? with
    | none => none
    | some photo_path => fs photo_path

/-- The names listed by `list_known_persons` (one entry per key of
`person_encodings`). -/
def list_known_persons_names (st : Store) : List String :=
  st.person_encodings.map (fun p => p.1)

/-- After erasing a key, looking it up yields nothing. -/
lemma lookupA_eraseA {α : Type} (k : String) (l : List (String × α)) :
    lookupA k (eraseA k l) = none := by
  induction l with
  | nil => rfl
  | cons p rest ih =>
    by_cases hp : p.1 = k
    · simpa [eraseA, hp] using ih
    · simpa [eraseA, hp, lookupA] using ih

/-! ## Temporal consistency (`_apply_temporal_consistency`) -/

/-- `self.recognition_history[-5:]`. -/
def lastFive (history : List String) : List String :=
  history.drop (history.length - 5)

/-- `FaceRecognitionEngine._apply_temporal_consistency(person_name,
confidence)` with the engine's history passed explicitly. -/
def apply_temporal_consistency (recognition_history : List String)
    (person_name : String) (confidence : ℚ) : ℚ :=
  if recognition_history = [] ∨ person_name = "Unknown" then confidence
  else
    let recent_count :=
      (lastFive recognition_history).countP (fun entry => entry = person_name)
    if 2 ≤ recent_count then
      min 1.0 (confidence + min (temporal_bonus * recent_count) 0.15)
    else confidence

/-- C8: for a matched (non-"Unknown") name, the temporal step returns the
confidence unchanged when the name occurs fewer than twice in the last five
history entries, and otherwise min(1, c + min(0.05·count, 0.15)); whenever
c ≤ 1 the result lies between c and 1. -/
theorem apply_temporal_consistency_spec (history : List String) (name : String)
    (c : ℚ) (hname : name ≠ "Unknown") :
    (apply_temporal_consistency history name c =
      (if 2 ≤ (lastFive history).countP (fun entry => entry = name) then
        min 1.0 (c + min (temporal_bonus *
          ((lastFive history).countP (fun entry => entry = name) : ℚ)) 0.15)
       else c)) ∧
    (c ≤ 1 → c ≤ apply_temporal_consistency history name c ∧
      apply_temporal_consistency history name c ≤ 1) := by
  have hbonus : (0:ℚ) ≤ min (temporal_bonus *
      ((lastFive history).countP (fun entry => entry = name) : ℚ)) 0.15 := by
    refine le_min ?_ (by norm_num)
    have hcast : (0:ℚ) ≤ ((lastFive history).countP (fun entry => entry = name) : ℚ) :=
      Nat.cast_nonneg _
    unfold temporal_bonus
    nlinarith
  have heq : apply_temporal_consistency history name c =
      (if 2 ≤ (lastFive history).countP (fun entry => entry = name) then
        min 1.0 (c + min (temporal_bonus *
          ((lastFive history).countP (fun entry => entry = name) : ℚ)) 0.15)
       else c) := by
    by_cases hh : history = []
    · subst hh
      simp [apply_temporal_consistency, lastFive]
    · by_cases h2 : 2 ≤ (lastFive history).countP (fun entry => entry = name)
      · simp [apply_temporal_consistency, hh, hname, h2]
      · simp [apply_temporal_consistency, hh, hname, h2]
  refine ⟨heq, fun hc => ?_⟩
  rw [heq]
  by_cases h2 : 2 ≤ (lastFive history).countP (fun entry => entry = name)
  · rw [if_pos h2]
    constructor
    · exact le_min (by norm_num; linarith) (by linarith)
    · exact le_trans (min_le_left _ _) (by norm_num)
  · rw [if_neg h2]
    exact ⟨le_refl c, hc⟩

/-- Witness for `apply_temporal_consistency_spec`: two recent "Alice" entries
raise confidence 0.8 to 0.9. -/
theorem apply_temporal_consistency_spec_witness :
    (apply_temporal_consistency ["Alice", "Alice"] "Alice" 0.8 =
      (if 2 ≤ (lastFive ["Alice", "Alice"]).countP (fun entry => entry = "Alice") then
        min 1.0 ((0.8:ℚ) + min (temporal_bonus *
          ((lastFive ["Alice", "Alice"]).countP (fun entry => entry = "Alice") : ℚ)) 0.15)
       else 0.8)) ∧
    ((0.8:ℚ) ≤ 1 → (0.8:ℚ) ≤ apply_temporal_consistency ["Alice", "Alice"] "Alice" 0.8 ∧
      apply_temporal_consistency ["Alice", "Alice"] "Alice" 0.8 ≤ 1) :=
  apply_temporal_consistency_spec ["Alice", "Alice"] "Alice" 0.8 (by decide)

/-- `lookupA` misses exactly when no binding carries the key. -/
lemma lookupA_eq_none_iff {α : Type} (k : String) (l : List (String × α)) :
    lookupA k l = none ↔ ∀ p ∈ l, p.1 ≠ k := by
  induction l with
  | nil => simp [lookupA]
  | cons p rest ih =>
    obtain ⟨k2, v⟩ := p
    by_cases hp : k2 = k <;> simp [lookupA, hp, ih]

/-- An erased key is absent from the key list. -/
lemma not_mem_keys_eraseA {α : Type} (k : String) (l : List (String × α)) :
    k ∉ (eraseA k l).map (fun p => p.1) := by
  intro hmem
  rcases List.mem_map.mp hmem with ⟨p, hp, hk⟩
  exact (lookupA_eq_none_iff k (eraseA k l)).mp (lookupA_eraseA k l) p hp hk

/-- C7: removing a stored name succeeds and leaves no observable trace of the
identity — it is gone from the parallel name list, the per-person encodings
dict, the metadata dict, the listing, and `get_person_photo` returns nothing;
removing an absent name fails and returns the store unchanged. -/
theorem remove_known_person_spec (st : Store) (name : String) :
    ((lookupA name st.person_encodings).isSome →
      (remove_known_person st name).2 ≠ .notFound ∧
      name ∉ (remove_known_person st name).1.known_face_names ∧
      lookupA name (remove_known_person st name).1.person_encodings = none ∧
      lookupA name (remove_known_person st name).1.known_faces_metadata = none ∧
      name ∉ list_known_persons_names (remove_known_person st name).1 ∧
      ∀ fs, get_person_photo fs (remove_known_person st name).1 name = none) ∧
    (lookupA name st.person_encodings = none →
      remove_known_person st name = (st, .notFound)) := by
  constructor
  · intro hs
    cases hl : lookupA name st.person_encodings with
    | none => rw [hl] at hs; simp at hs
    | some encs =>
      have hpe : lookupA name (remove_known_person st name).1.person_encodings = none := by
        simp [remove_known_person, hl, lookupA_eraseA]
      have hmd : lookupA name (remove_known_person st name).1.known_faces_metadata
          = none := by
        cases hm : lookupA name st.known_faces_metadata with
        | none => simpa [remove_known_person, hl, hm] using hm
        | some m => simp [remove_known_person, hl, hm, lookupA_eraseA]
      refine ⟨by simp [remove_known_person, hl], ?_, hpe, hmd, ?_, ?_⟩
      · simp [remove_known_person, hl, List.mem_filter]
      · have hkeys := not_mem_keys_eraseA name st.person_encodings
        simpa [remove_known_person, hl, list_known_persons_names] using hkeys
      · intro fs
        simp [get_person_photo, hmd]
  · intro h
    simp [remove_known_person, h]

/-- The one-person store used by the C7 witness. -/
def storeC7 : Store :=
  ⟨[3], ["P"], [("P", [3])], [("P", ⟨["P_1.jpg"], "standard", "", 1⟩)]⟩

/-- Witness for `remove_known_person_spec`: removing the present "P". -/
theorem remove_known_person_spec_witness :
    (remove_known_person storeC7 "P").2 ≠ .notFound ∧
    "P" ∉ (remove_known_person storeC7 "P").1.known_face_names ∧
    lookupA "P" (remove_known_person storeC7 "P").1.person_encodings = none ∧
    lookupA "P" (remove_known_person storeC7 "P").1.known_faces_metadata = none ∧
    "P" ∉ list_known_persons_names (remove_known_person storeC7 "P").1 ∧
    ∀ fs, get_person_photo fs (remove_known_person storeC7 "P").1 "P" = none :=
  (remove_known_person_spec storeC7 "P").1 (by rfl)

/-! ## Recognition decision (`recognize_face`, lines 447–505) -/

/-- The best-match loop of lines 448–463: the running best similarity is
updated whenever a person scores higher, and the name only when that score
also reaches the dynamic threshold. -/
def findBestAux (dynamic_threshold : ℚ) :
    String × ℚ → List (String × ℚ) → String × ℚ
  | acc, [] => acc
  | acc, (person_name, similarity) :: rest =>
    findBestAux dynamic_threshold
      (if acc.2 < similarity then
        (if dynamic_threshold ≤ similarity then person_name else acc.1, similarity)
       else acc) rest

/-- The loop of lines 448–463 started from ("Unknown", 0.0). -/
def findBest (dynamic_threshold : ℚ) (scores : List (String × ℚ)) : String × ℚ :=
  findBestAux dynamic_threshold ("Unknown", 0.0) scores

/-- Descending insertion used to model `best_scores.sort(reverse=True)`. -/
def insertDesc (x : ℚ) : List ℚ → List ℚ
  | [] => [x]
  | y :: ys => if y ≤ x then x :: y :: ys else y :: insertDesc x ys

/-- Descending sort of the similarity values; only the two largest values of
the multiset are consumed, so ignoring the tuple tie-break on names is
faithful. -/
def sortDesc : List ℚ → List ℚ
  | [] => []
  | x :: xs => insertDesc x (sortDesc xs)

/-- `best_scores[0][0]` after the descending sort. -/
def firstScore (scores : List (String × ℚ)) : ℚ :=
  (sortDesc (scores.map (fun p => p.2))).getD 0 0

/-- `best_scores[1][0]` after the descending sort. -/
def secondScore (scores : List (String × ℚ)) : ℚ :=
  (sortDesc (scores.map (fun p => p.2))).getD 1 0

/-- `required_margin = 0.12 if quality_score > 0.7 else 0.18`. -/
def requiredMargin (quality_score : ℚ) : ℚ :=
  if quality_score > 0.7 then 0.12 else 0.18

/-- The per-face decision logic of lines 447–505, as a function of the
per-person similarity scores (in dict order), the face quality score and the
dynamic threshold: the best-match loop, then validation layer 1 (threshold),
layer 2 (ambiguity margin) and layer 3 (quality adjustment and re-test). -/
def recognize_decision (scores : List (String × ℚ))
    (quality_score dynamic_threshold : ℚ) : String × ℚ :=
  if scores = [] then ("Unknown", 0.0)
  else
    let best := findBest dynamic_threshold scores
    if best.2 < dynamic_threshold then best
    else if 2 ≤ scores.length ∧
        firstScore scores - secondScore scores < requiredMargin quality_score ∧
        firstScore scores < 0.85 then
      ("Unknown", 0.0)
    else if best.1 = "Unknown" then best
    else
      let adjusted :=
        if quality_score > 0.8 then min 1.0 (best.2 * 1.02)
        else if quality_score < 0.5 then best.2 * 0.9
        else best.2
      if adjusted < dynamic_threshold then ("Unknown", 0.0)
      else (best.1, adjusted)

/-- Loop invariant: if the loop ever picked a real name, the best similarity
reached the threshold. -/
lemma findBestAux_threshold (t : ℚ) (acc : String × ℚ) (l : List (String × ℚ))
    (hacc : acc.1 ≠ "Unknown" → t ≤ acc.2) :
    (findBestAux t acc l).1 ≠ "Unknown" → t ≤ (findBestAux t acc l).2 := by
  induction l generalizing acc with
  | nil => exact hacc
  | cons p rest ih =>
    obtain ⟨n, sim⟩ := p
    simp only [findBestAux]
    apply ih
    by_cases h1 : acc.2 < sim
    · by_cases ht : t ≤ sim
      · simp [h1, ht]
      · simp only [h1, ht, if_true, if_false]
        intro hne
        exact ht (le_trans (hacc hne) (le_of_lt h1))
    · simpa [h1] using hacc

/-- C4: with at least two known identities, when the margin between the best
and second-best similarity is below the required margin (0.12 for quality
above 0.7, else 0.18) and the best score is below 0.85, the face is decided
"Unknown". -/
theorem ambiguous_match_forces_unknown (scores : List (String × ℚ))
    (quality_score dynamic_threshold : ℚ)
    (hlen : 2 ≤ scores.length)
    (hm : firstScore scores - secondScore scores < requiredMargin quality_score)
    (hf : firstScore scores < 0.85) :
    (recognize_decision scores quality_score dynamic_threshold).1 = "Unknown" := by
  have hne : scores ≠ [] := by
    intro h
    rw [h] at hlen
    simp at hlen
  simp only [recognize_decision, if_neg hne]
  by_cases hb : (findBest dynamic_threshold scores).2 < dynamic_threshold
  · rw [if_pos hb]
    by_contra hcon
    have hinv := findBestAux_threshold dynamic_threshold ("Unknown", 0.0) scores
      (fun hx => absurd rfl hx) hcon
    exact absurd hinv (not_le.mpr hb)
  · rw [if_neg hb, if_pos ⟨hlen, hm, hf⟩]

/-- Witness for `ambiguous_match_forces_unknown`: the spec instance
best = 0.60, second = 0.50, quality = 0.8 (threshold 0.55) → "Unknown". -/
theorem ambiguous_match_forces_unknown_witness :
    2 ≤ ([("A", 0.6), ("B", 0.5)] : List (String × ℚ)).length ∧
    firstScore [("A", 0.6), ("B", 0.5)] - secondScore [("A", 0.6), ("B", 0.5)] <
      requiredMargin 0.8 ∧
    firstScore [("A", 0.6), ("B", 0.5)] < 0.85 ∧
    (recognize_decision [("A", 0.6), ("B", 0.5)] 0.8 0.55).1 = "Unknown" := by
  have hm : firstScore [("A", 0.6), ("B", 0.5)] - secondScore [("A", 0.6), ("B", 0.5)] <
      requiredMargin 0.8 := by
    norm_num [firstScore, secondScore, sortDesc, insertDesc, requiredMargin]
  have hf : firstScore [("A", 0.6), ("B", 0.5)] < 0.85 := by
    norm_num [firstScore, sortDesc, insertDesc]
  exact ⟨by norm_num, hm, hf,
    ambiguous_match_forces_unknown [("A", 0.6), ("B", 0.5)] 0.8 0.55 (by norm_num) hm hf⟩
